import Mathlib

/-!
Verification of the node-ogg container wrapper.

The repository is a thin TypeScript layer over the native libogg binding:
`Decoder` / `DecoderStream` (decode-side multiplexing and packet delivery),
`Encoder` / `EncoderStream` (encode-side multiplexing, page queueing and
flushing).  The page codec, the `ogg_stream_flush` page producer and the
`ogg_stream_packetout` result protocol live in the native binding, outside the
TypeScript sources; those parts are modelled from the specification (wire
layout in section 6, contracts in sections 4.2-4.5) and are marked as such.
All other definitions are direct translations of the TypeScript sources.
-/

namespace NodeOgg

/-! ### PageCodec: page structure and wire format

Modelled from the spec: the `PageCodec` component (parse/serialize of the
on-wire page layout, section 4.2 and the byte-layout table of section 6) is
implemented by the native binding, not by the TypeScript sources. -/

/-- An Ogg page: header fields, segment table and body.  Field values are the
raw unsigned little-endian field contents from the wire layout. -/
structure OggPageRec where
  headerType : Nat
  granulePos : Nat
  serialNo : Nat
  pageSeq : Nat
  segTable : List Nat
  body : List Nat
deriving DecidableEq

/-- Structural validity of a page: every field fits its wire width, at most
255 segment-table entries, and the body length equals the sum of the
segment-table entries. -/
abbrev WFPage (p : OggPageRec) : Prop :=
  p.headerType < 256 ∧
  p.granulePos < 18446744073709551616 ∧
  p.serialNo < 4294967296 ∧
  p.pageSeq < 4294967296 ∧
  p.segTable.length ≤ 255 ∧
  (∀ b ∈ p.segTable, b < 256) ∧
  (∀ b ∈ p.body, b < 256) ∧
  p.body.length = p.segTable.sum

/-- Little-endian 8-byte encoding of a 64-bit field. -/
def toLE8 (n : Nat) : List Nat :=
  [n % 256, n / 256 % 256, n / 65536 % 256, n / 16777216 % 256,
   n / 4294967296 % 256, n / 1099511627776 % 256,
   n / 281474976710656 % 256, n / 72057594037927936 % 256]

/-- Little-endian 4-byte encoding of a 32-bit field. -/
def toLE4 (n : Nat) : List Nat :=
  [n % 256, n / 256 % 256, n / 65536 % 256, n / 16777216 % 256]

/-- Value of 4 little-endian bytes. -/
def leVal4 (a b c d : Nat) : Nat :=
  a + 256 * b + 65536 * c + 16777216 * d

/-- Value of 8 little-endian bytes. -/
def leVal8 (a b c d e f g h : Nat) : Nat :=
  a + 256 * b + 65536 * c + 16777216 * d + 4294967296 * e +
    1099511627776 * f + 281474976710656 * g + 72057594037927936 * h

/-- Modelled from the spec: one shift-and-conditionally-xor step of the Ogg
CRC (polynomial 0x04c11db7, not reflected, no final xor). -/
def crcStep (r : Nat) : Nat :=
  if 2147483648 ≤ r then ((r * 2) ^^^ 0x04c11db7) % 4294967296
  else (r * 2) % 4294967296

/-- Modelled from the spec: the 256-entry Ogg CRC table, entry for byte `b`. -/
def crcEntry (b : Nat) : Nat :=
  crcStep^[8] ((b % 256) * 16777216)

/-- Modelled from the spec: `crc_update(accumulator, byte)` for the Ogg CRC. -/
def crcUpdate (acc b : Nat) : Nat :=
  ((acc % 4294967296) * 256 ^^^ crcEntry ((acc / 16777216) ^^^ b)) % 4294967296

/-- Modelled from the spec: `crc(bytes) -> uint32`, the Ogg CRC of a byte
sequence, accumulator initialised to 0. -/
def crc32Ogg (bs : List Nat) : Nat :=
  bs.foldl crcUpdate 0

/-- Modelled from the spec: serialize a page with an explicitly given value in
the 4-byte checksum field (offset 22), following the wire table of section 6:
capture pattern 4f 67 67 53, version 0, header type, granule position,
serial number, page sequence number, checksum, segment count, segment table,
body. -/
def serializeWithCrc (p : OggPageRec) (crc : Nat) : List Nat :=
  79 :: 103 :: 103 :: 83 :: 0 :: p.headerType ::
    (toLE8 p.granulePos ++ toLE4 p.serialNo ++ toLE4 p.pageSeq ++ toLE4 crc ++
      p.segTable.length :: (p.segTable ++ p.body))

/-- Modelled from the spec: `serialize(Page) -> bytes` computes the CRC over
the page with the checksum field zeroed, then patches the checksum field. -/
def serialize (p : OggPageRec) : List Nat :=
  serializeWithCrc p (crc32Ogg (serializeWithCrc p 0))

/-- Result of `PageCodec.parse`. -/
inductive ParseResult
  | ok (page : OggPageRec) (consumed : Nat)
  | truncated
  | notAPage
  | corruptPage
deriving DecidableEq

/-- The page held by a successful parse result, if any. -/
def ParseResult.page? : ParseResult → Option OggPageRec
  | .ok p _ => some p
  | _ => none

/-- Modelled from the spec: `parse(buffer) -> (Page, bytes_consumed) |
NotAPage | Truncated | CorruptPage`.  Requires the capture pattern and
version 0, reads the header fields little-endian, the segment table and the
body, and finally verifies the checksum by re-serializing with a zeroed
checksum field. -/
def parse (buf : List Nat) : ParseResult :=
  match buf with
  | 79 :: 103 :: 103 :: 83 :: 0 :: ht ::
    g0 :: g1 :: g2 :: g3 :: g4 :: g5 :: g6 :: g7 ::
    s0 :: s1 :: s2 :: s3 :: q0 :: q1 :: q2 :: q3 ::
    k0 :: k1 :: k2 :: k3 :: nseg :: rest =>
    if nseg ≤ rest.length then
      let segT := rest.take nseg
      let bl := segT.sum
      if bl ≤ (rest.drop nseg).length then
        let body := (rest.drop nseg).take bl
        let page : OggPageRec :=
          ⟨ht, leVal8 g0 g1 g2 g3 g4 g5 g6 g7, leVal4 s0 s1 s2 s3,
            leVal4 q0 q1 q2 q3, segT, body⟩
        if crc32Ogg (serializeWithCrc page 0) = leVal4 k0 k1 k2 k3 then
          .ok page (27 + nseg + bl)
        else .corruptPage
      else .truncated
    else .truncated
  | 79 :: 103 :: 103 :: 83 :: 0 :: _ => .truncated
  | 79 :: 103 :: 103 :: 83 :: _ :: _ => .corruptPage
  | b => if b.length < 4 then .truncated else
      if b.take 4 = [79, 103, 103, 83] then .truncated else .notAPage

theorem crcStep_lt (r : Nat) : crcStep r < 4294967296 := by
  unfold crcStep
  split <;> exact Nat.mod_lt _ (by norm_num)

theorem crcUpdate_lt (acc b : Nat) : crcUpdate acc b < 4294967296 :=
  Nat.mod_lt _ (by norm_num)

theorem foldl_crcUpdate_lt (bs : List Nat) (acc : Nat) (h : acc < 4294967296) :
    bs.foldl crcUpdate acc < 4294967296 := by
  induction bs generalizing acc with
  | nil => exact h
  | cons b bs ih => exact ih _ (crcUpdate_lt acc b)

theorem crc32Ogg_lt (bs : List Nat) : crc32Ogg bs < 4294967296 :=
  foldl_crcUpdate_lt bs 0 (by norm_num)

theorem serialize_eq_cons (p : OggPageRec) :
    serialize p =
      79 :: 103 :: 103 :: 83 :: 0 :: p.headerType ::
      p.granulePos % 256 :: p.granulePos / 256 % 256 ::
      p.granulePos / 65536 % 256 :: p.granulePos / 16777216 % 256 ::
      p.granulePos / 4294967296 % 256 :: p.granulePos / 1099511627776 % 256 ::
      p.granulePos / 281474976710656 % 256 ::
      p.granulePos / 72057594037927936 % 256 ::
      p.serialNo % 256 :: p.serialNo / 256 % 256 ::
      p.serialNo / 65536 % 256 :: p.serialNo / 16777216 % 256 ::
      p.pageSeq % 256 :: p.pageSeq / 256 % 256 ::
      p.pageSeq / 65536 % 256 :: p.pageSeq / 16777216 % 256 ::
      crc32Ogg (serializeWithCrc p 0) % 256 ::
      crc32Ogg (serializeWithCrc p 0) / 256 % 256 ::
      crc32Ogg (serializeWithCrc p 0) / 65536 % 256 ::
      crc32Ogg (serializeWithCrc p 0) / 16777216 % 256 ::
      p.segTable.length :: (p.segTable ++ p.body) := by
  simp [serialize, serializeWithCrc, toLE8, toLE4]

/-- Parsing the serialization of a structurally valid page recovers the page. -/
theorem parse_serialize (p : OggPageRec) (h : WFPage p) :
    (parse (serialize p)).page? = some p := by
  obtain ⟨hht, hg, hs, hq, hlen, hsegb, hbodyb, hsum⟩ := h
  rw [serialize_eq_cons, parse]
  have hle : p.segTable.length ≤ (p.segTable ++ p.body).length := by
    simp [List.length_append]
  rw [if_pos hle]
  have htake : (p.segTable ++ p.body).take p.segTable.length = p.segTable :=
    List.take_left p.segTable p.body
  have hdrop : (p.segTable ++ p.body).drop p.segTable.length = p.body :=
    List.drop_left p.segTable p.body
  simp only [htake, hdrop]
  have hble : p.segTable.sum ≤ p.body.length := by omega
  rw [if_pos hble]
  have hbtake : p.body.take p.segTable.sum = p.body := by
    rw [← hsum]; exact List.take_length p.body
  simp only [hbtake]
  have hgv : leVal8 (p.granulePos % 256) (p.granulePos / 256 % 256)
      (p.granulePos / 65536 % 256) (p.granulePos / 16777216 % 256)
      (p.granulePos / 4294967296 % 256) (p.granulePos / 1099511627776 % 256)
      (p.granulePos / 281474976710656 % 256)
      (p.granulePos / 72057594037927936 % 256) = p.granulePos := by
    unfold leVal8; omega
  have hsv : leVal4 (p.serialNo % 256) (p.serialNo / 256 % 256)
      (p.serialNo / 65536 % 256) (p.serialNo / 16777216 % 256) = p.serialNo := by
    unfold leVal4; omega
  have hqv : leVal4 (p.pageSeq % 256) (p.pageSeq / 256 % 256)
      (p.pageSeq / 65536 % 256) (p.pageSeq / 16777216 % 256) = p.pageSeq := by
    unfold leVal4; omega
  have hkv : leVal4 (crc32Ogg (serializeWithCrc p 0) % 256)
      (crc32Ogg (serializeWithCrc p 0) / 256 % 256)
      (crc32Ogg (serializeWithCrc p 0) / 65536 % 256)
      (crc32Ogg (serializeWithCrc p 0) / 16777216 % 256) =
      crc32Ogg (serializeWithCrc p 0) := by
    have := crc32Ogg_lt (serializeWithCrc p 0)
    unfold leVal4; omega
  rw [hgv, hsv, hqv, hkv]
  rw [if_pos rfl]
  rfl

/-! ### Decoder: decode-side multiplexer (src/lib/Decoder.ts) -/

/-- The decode-side multiplexer state: the `Decoder._streams` table mapping a
serial number to its `DecoderStream` instance (instances are represented by
numeric identities allocated from `nextId`), plus the set of instances whose
readable output has been ended (`push(null)` was called on them). -/
structure DecoderModel where
  streams : List (Nat × Nat)
  nextId : Nat
  ended : List Nat
deriving DecidableEq

/-- Model of `Decoder._stream(serialno)` (src/lib/Decoder.ts lines 37-46): look the
serial number up in `_streams`; if absent, construct a `DecoderStream`, store
it under the serial number and emit a "stream" event.  Returns the instance,
the updated state and whether the "stream" event was emitted. -/
def decoder_stream (st : DecoderModel) (serialno : Nat) :
    Nat × DecoderModel × Bool :=
  match st.streams.lookup serialno with
  | some id => (id, st, false)
  | none =>
      (st.nextId,
        { st with streams := (serialno, st.nextId) :: st.streams,
                  nextId := st.nextId + 1 },
        true)

/-- Model of `afterPacketRead` on the decode side (src/unnamed/part_000 lines
117-127): when the packet just delivered to the caller carries `e_o_s`, the
`DecoderStream` emits "eos" and ends its readable output with `push(null)`.
Nothing in `Decoder` removes the entry from `_streams`. -/
def decoder_afterPacketRead (st : DecoderModel) (id : Nat) (eos : Bool) :
    DecoderModel :=
  if eos then { st with ended := id :: st.ended } else st

/-! ### DecoderStream packet extraction loop (src/unnamed/part_000) -/

/-- Modelled from the spec: one result of the native
`ogg_stream_packetout` call — a packet (return 1), a sync gap (return -1,
section 9 notes the gap handling is delegated to the native library), or an
unrecoverable error. -/
inductive PacketoutRes
  | got (bytes : List Nat) (bos eos : Bool) (granulepos packetno : Nat)
  | hole
  | fatal (code : Int)
deriving DecidableEq

/-- Events a `DecoderStream` can surface to the caller.  `discontinuityEv` is
the spec's `Discontinuity` notification vocabulary (section 7). -/
inductive DecEvent
  | packetEv (bytes : List Nat)
  | bosEv
  | eosEv
  | discontinuityEv
deriving DecidableEq

/-- Errors surfaced through the decode-side callbacks. -/
inductive DecErr
  | streamAlreadyClosed
  | packetoutError (code : Int)
  | noResult
deriving DecidableEq

/-- The `packetout`/`afterPacketout`/`afterPacketRead` loop of
`DecoderStream.pagein` (src/unnamed/part_000 lines 80-127): while page
packets remain, request the next `ogg_stream_packetout` result; on return 1
emit "bos" (if flagged), deliver the packet, emit "eos" (if flagged) and
decrement the remaining-packet counter; on return -1 retry without emitting
anything; otherwise fail with the unrecoverable error.  The results list is
the oracle of successive native-call outcomes. -/
def packetLoop : Nat → List PacketoutRes → List DecEvent × Except DecErr Unit
  | 0, _ => ([], .ok ())
  | _ + 1, [] => ([], .error .noResult)
  | n + 1, r :: rs =>
    match r with
    | .got bytes bos eos _ _ =>
        let evs := (if bos then [DecEvent.bosEv] else []) ++
          [DecEvent.packetEv bytes] ++ (if eos then [DecEvent.eosEv] else [])
        let rest := packetLoop n rs
        (evs ++ rest.1, rest.2)
    | .hole => packetLoop (n + 1) rs
    | .fatal c => ([], .error (.packetoutError c))

/-- Per-logical-stream demuxer flag: whether the readable output has been
ended (the e_o_s packet was delivered and `push(null)` ran). -/
structure DemuxerState where
  ended : Bool
deriving DecidableEq

/-- A whole-page delivery through the packet loop: runs `packetLoop` and
records whether the e_o_s packet was delivered, which ends the stream's
output (src/unnamed/part_000 lines 117-127). -/
def deliverPackets (st : DemuxerState) (n : Nat) (rs : List PacketoutRes) :
    DemuxerState × List DecEvent × Except DecErr Unit :=
  let r := packetLoop n rs
  (⟨st.ended || decide (DecEvent.eosEv ∈ r.1)⟩, r.1, r.2)

/-- Modelled from the spec: submitting a further page to a demuxer whose
e_o_s packet has already been delivered is a `StreamAlreadyClosed` error
(section 4.4); the page-in path for that state is not in the TypeScript
sources.  A live stream processes the page through the packet loop. -/
def pagein_guarded (st : DemuxerState) (n : Nat) (rs : List PacketoutRes) :
    Except DecErr (DemuxerState × List DecEvent) :=
  if st.ended then .error .streamAlreadyClosed
  else
    let r := deliverPackets st n rs
    match r.2.2 with
    | .ok _ => .ok (r.1, r.2.1)
    | .error e => .error e

/-! ### Encoder: encode-side multiplexer (src/lib/Encoder.ts,
src/lib/EncoderStream.ts) -/

/-- The encode-side multiplexer state: the `Encoder._streams` table mapping a
serial number to its `EncoderStream` instance (numeric identities allocated
from `nextId`), the identities that have the bound `_onpage` page-event
handler attached (with multiplicity), the `_queue` of flattened page buffers,
the `_needsEnd` flag and whether a `once("_page", output)` listener is armed
by a pending `_read`. -/
structure EncoderModel where
  streams : List (Nat × Nat)
  nextId : Nat
  handlers : List Nat
  queue : List (List Nat)
  needsEnd : Bool
  pending : Bool
deriving DecidableEq

/-- Model of `(Math.random() * 1000000) | 0` in the `EncoderStream` constructor
(src/lib/EncoderStream.ts lines 19-32), with `Math.random()` modelled as
`x / 2 ^ 53` for a draw `x < 2 ^ 53`; `| 0` truncates the non-negative
product towards zero. -/
def encoderStream_genSerial (x : Nat) : Nat :=
  x * 1000000 / 9007199254740992

/-- Model of `Encoder.stream(serialno)` with a caller-supplied serial number
(src/lib/Encoder.ts lines 56-65): look the serial number up in `_streams`;
if absent, construct an `EncoderStream`, attach the `_onpage` page handler to
it and store it under its serial number.  Returns the instance and the
updated state. -/
def encoder_stream (st : EncoderModel) (serialno : Nat) : Nat × EncoderModel :=
  match st.streams.lookup serialno with
  | some id => (id, st)
  | none =>
      (st.nextId,
        { st with streams := (serialno, st.nextId) :: st.streams,
                  handlers := st.nextId :: st.handlers,
                  nextId := st.nextId + 1 })

/-- Model of `Encoder.stream(undefined)`: the lookup of the undefined key misses, so a
fresh `EncoderStream` is always constructed; its constructor draws the random
serial number without consulting the `_streams` table, the handler is
attached, and the instance is stored under the generated serial number
(shadowing any stream already using it).  Returns the generated serial
number, the instance and the updated state. -/
def encoder_stream_auto (st : EncoderModel) (x : Nat) :
    Nat × Nat × EncoderModel :=
  let serial := encoderStream_genSerial x
  (serial, st.nextId,
    { st with streams := (serial, st.nextId) :: st.streams,
              handlers := st.nextId :: st.handlers,
              nextId := st.nextId + 1 })

/-- Model of `Encoder._onpage(stream, page, header_len, body_len, e_o_s)`
(src/lib/Encoder.ts lines 33-46): when the page carries `e_o_s` the stream's
entry is deleted from `_streams`; the page bytes are appended to `_queue`. -/
def encoder_onpage (st : EncoderModel) (serialno : Nat) (eos : Bool)
    (data : List Nat) : EncoderModel :=
  { st with
    streams := if eos then st.streams.filter (fun e => !(e.1 == serialno))
               else st.streams,
    queue := st.queue ++ [data] }

/-- The `output` closure of `Encoder._read` (src/lib/Encoder.ts lines
79-88): concatenate the whole `_queue` in order, empty it, set `_needsEnd`
when no stream remains in `_streams`, and push the concatenation. -/
def encoder_output (st : EncoderModel) : EncoderModel × List Nat :=
  ({ st with queue := [], needsEnd := st.streams.isEmpty, pending := false },
    st.queue.flatten)

/-- What one `Encoder._read` call does. -/
inductive ReadAct
  | pushedEnd
  | pushed (b : List Nat)
  | waiting
deriving DecidableEq

/-- Model of `Encoder._read` (src/lib/Encoder.ts lines 76-98): if `_needsEnd`, push
null (signal end of the physical stream); otherwise if the queue is nonempty,
run `output`; otherwise arm a `once("_page", output)` listener. -/
def encoder_read (st : EncoderModel) : EncoderModel × ReadAct :=
  if st.needsEnd then (st, .pushedEnd)
  else if st.queue.isEmpty then ({ st with pending := true }, .waiting)
  else
    let r := encoder_output st
    (r.1, .pushed r.2)

/-- An `_onpage` delivery at the system level: `_onpage` itself, then the
`emit("_page")` running the armed `once` listener (the `output` closure) when
a `_read` is waiting. -/
def encoder_onpage_step (st : EncoderModel) (serialno : Nat) (eos : Bool)
    (data : List Nat) : EncoderModel × Option (List Nat) :=
  let st1 := encoder_onpage st serialno eos data
  if st1.pending then
    let r := encoder_output st1
    (r.1, some r.2)
  else (st1, none)

/-! ### EncoderStream flush loop (src/lib/EncoderStream.ts) -/

/-- Per-logical-stream muxer state behind the native `ogg_stream_state`:
packet bytes queued by `packetin` and not yet placed in a page, the next page
sequence number, and whether the queued data ends with the stream's e_o_s
packet. -/
structure MuxerState where
  pending : List Nat
  pageno : Nat
  eosQueued : Bool
deriving DecidableEq

/-- A page produced by the flush loop. -/
structure FlushPage where
  body : List Nat
  eos : Bool
deriving DecidableEq

/-- Largest page body: 255 segments of 255 bytes. -/
def maxPageBody : Nat := 65025

/-- Modelled from the spec: one native `ogg_stream_flush` call (section
4.5) — returns 0 (none) when no packet data remains queued, otherwise forces
the next page out regardless of fill level, carrying up to 255*255 body
bytes, with the e_o_s flag on the page holding the final byte of the e_o_s
packet. -/
def ogg_stream_flush (st : MuxerState) : Option (FlushPage × MuxerState) :=
  if st.pending.isEmpty then none
  else
    some (⟨st.pending.take maxPageBody,
            st.eosQueued && (st.pending.drop maxPageBody).isEmpty⟩,
          ⟨st.pending.drop maxPageBody, st.pageno + 1, st.eosQueued⟩)

/-- Model of `EncoderStream._flush` (src/lib/EncoderStream.ts lines 138-151): call
`ogg_stream_flush` repeatedly, emitting a "page" event for each produced
page, until it returns 0, then invoke the callback with no error.  Returns
the emitted pages in order and the final muxer state. -/
def encoderStream_flush (st : MuxerState) : List FlushPage × MuxerState :=
  match h : ogg_stream_flush st with
  | none => ([], st)
  | some pr =>
      let r := encoderStream_flush pr.2
      (pr.1 :: r.1, r.2)
termination_by st.pending.length
decreasing_by
  simp only [ogg_stream_flush] at h
  split at h
  · exact absurd h (by simp)
  · rename_i hne
    rw [Option.some.injEq] at h
    rw [← h]
    simp only [List.length_drop]
    have : st.pending.length ≠ 0 := by
      simpa [List.isEmpty_iff_length_eq_zero] using hne
    have : 0 < maxPageBody := by norm_num [maxPageBody]
    omega

/-! ### Helper lemmas -/

theorem lookup_filter_ne (l : List (Nat × Nat)) (s s' : Nat) :
    (l.filter (fun e => !(e.1 == s))).lookup s' =
      if s' = s then none else l.lookup s' := by
  induction l with
  | nil => by_cases hs : s' = s <;> simp [hs, List.lookup]
  | cons e l ih =>
    rcases e with ⟨k, v⟩
    rw [List.filter_cons]
    by_cases hk : k = s
    · subst hk
      rw [if_neg (by simp), ih]
      by_cases hs : s' = k
      · simp [hs]
      · simp [List.lookup, hs, beq_eq_false_iff_ne.mpr hs]
    · rw [if_pos (by simpa using hk)]
      by_cases hs : s' = s
      · subst hs
        have hsk : (s' == k) = false := beq_eq_false_iff_ne.mpr (by omega)
        simp [List.lookup, hsk, ih]
      · cases hsk : s' == k <;> simp [List.lookup, hsk, ih, hs]

/-! ### Claim theorems -/

/-- C1: the decode-side multiplexer (`Decoder._stream`, reached from
`afterPageout` for every incoming page) forwards the page to the demuxer
keyed by the page's serial number: when the serial number is unseen it
creates the demuxer and emits the "stream" notification, and after that the
table maps the serial number to the created instance; when the serial number
is already present it returns that existing instance with no notification and
no state change; in particular a second page with the same serial number is
routed to the same instance without a second notification. -/
theorem decoder_stream_routes_and_notifies_once (st : DecoderModel) (s : Nat) :
    (st.streams.lookup s = none →
      (decoder_stream st s).2.2 = true ∧
      (decoder_stream st s).2.1.streams.lookup s =
        some (decoder_stream st s).1) ∧
    (∀ i, st.streams.lookup s = some i → decoder_stream st s = (i, st, false)) ∧
    decoder_stream (decoder_stream st s).2.1 s =
      ((decoder_stream st s).1, (decoder_stream st s).2.1, false) := by
  cases h : st.streams.lookup s <;>
    simp [decoder_stream, h, List.lookup]

/-- Witness for C1 at the empty table and serial number 7: the first page
creates and notifies, and the table then holds the instance. -/
theorem decoder_stream_routes_and_notifies_once_witness :
    (decoder_stream ⟨[], 0, []⟩ 7).2.2 = true ∧
    (decoder_stream ⟨[], 0, []⟩ 7).2.1.streams.lookup 7 =
      some (decoder_stream ⟨[], 0, []⟩ 7).1 :=
  (decoder_stream_routes_and_notifies_once ⟨[], 0, []⟩ 7).1 rfl

/-- Counterexample to C3 as stated: with the table mapping serial number 5 to
demuxer 0, delivering the e_o_s packet of demuxer 0 (which ends its output)
leaves the entry for serial 5 in the table — the claim says the table would
no longer contain it. -/
theorem decoder_eos_no_retirement_counterexample :
    (decoder_afterPacketRead ⟨[(5, 0)], 1, []⟩ 0 true).streams.lookup 5 =
      some 0 ∧
    0 ∈ (decoder_afterPacketRead ⟨[(5, 0)], 1, []⟩ 0 true).ended := by
  decide

/-- C3 amended: once the packet carrying e_o_s has been delivered, the
demuxer's packet output is ended (`push(null)`), but the decode-side
multiplexer leaves its per-serial-number table unchanged: the demuxer is
never removed. -/
theorem decoder_afterPacketRead_keeps_table (st : DecoderModel) (id : Nat)
    (eos : Bool) :
    (decoder_afterPacketRead st id eos).streams = st.streams ∧
    (eos = true → id ∈ (decoder_afterPacketRead st id eos).ended) := by
  unfold decoder_afterPacketRead
  cases eos <;> simp

/-- Witness for the amended C3 at a concrete state: delivering the e_o_s
packet ends the stream but leaves the table unchanged. -/
theorem decoder_afterPacketRead_keeps_table_witness :
    (decoder_afterPacketRead ⟨[(5, 0)], 1, []⟩ 0 true).streams = [(5, 0)] ∧
    0 ∈ (decoder_afterPacketRead ⟨[(5, 0)], 1, []⟩ 0 true).ended :=
  ⟨(decoder_afterPacketRead_keeps_table ⟨[(5, 0)], 1, []⟩ 0 true).1,
    (decoder_afterPacketRead_keeps_table ⟨[(5, 0)], 1, []⟩ 0 true).2 rfl⟩

/-- Counterexample to C5 as stated: a concrete page-in run in which
`ogg_stream_packetout` reports a gap (return -1) completes successfully and
delivers the remaining packets, but the caller receives no `Discontinuity`
notification — the claim says the condition is reported to the caller. -/
theorem packetout_gap_unreported_counterexample :
    (packetLoop 2 [PacketoutRes.hole, PacketoutRes.got [1] true false 0 0,
        PacketoutRes.got [2] false true 1 1]).1 =
      [DecEvent.bosEv, DecEvent.packetEv [1], DecEvent.packetEv [2],
        DecEvent.eosEv] ∧
    (packetLoop 2 [PacketoutRes.hole, PacketoutRes.got [1] true false 0 0,
        PacketoutRes.got [2] false true 1 1]).2 = Except.ok () := by
  constructor <;> rfl

/-- C5 amended: a page-sequence gap (`ogg_stream_packetout` returning -1) is
silently retried by the packet loop: no `Discontinuity` notification is ever
delivered to the caller, and packet extraction simply continues as if the
result had not occurred — the gap is indeed never treated as a fatal error,
but it is swallowed rather than surfaced. -/
theorem packetLoop_gap_silent :
    (∀ (n : Nat) (rs : List PacketoutRes),
      DecEvent.discontinuityEv ∉ (packetLoop n rs).1) ∧
    (∀ (n : Nat) (rs : List PacketoutRes),
      packetLoop (n + 1) (PacketoutRes.hole :: rs) = packetLoop (n + 1) rs) := by
  constructor
  · intro n rs
    induction rs generalizing n with
    | nil => cases n <;> simp [packetLoop]
    | cons r rs ih =>
      cases n with
      | zero => simp [packetLoop]
      | succ n =>
        cases r with
        | got bytes bos eos gp pn =>
          simp only [packetLoop, List.mem_append]
          push_neg
          refine ⟨⟨?_, ?_⟩, ih n⟩
          · cases bos <;> simp
          · cases eos <;> simp
        | hole => simpa [packetLoop] using ih (n + 1)
        | fatal c => simp [packetLoop]
  · intro n rs
    rfl

/-- A concrete structurally valid page used as the round-trip witness. -/
def samplePage : OggPageRec := ⟨4, 70000, 1234, 2, [3, 0], [7, 8, 9]⟩

/-- Witness for C2: the round-trip theorem applied at a concrete page. -/
theorem parse_serialize_witness :
    WFPage samplePage ∧ (parse (serialize samplePage)).page? = some samplePage :=
  ⟨by decide, parse_serialize samplePage (by decide)⟩

/-- C4 (code divergence): when no serial number is supplied, the generated
serial number is `floor(random * 1000000)`, hence always below 1000000 — not
drawn from the full 32-bit space — and the construction never consults the
multiplexer's table: the serial number is the same whatever streams are in
use, and it is stored even when it collides with an existing entry. -/
theorem encoder_stream_auto_bounded_unchecked (x : Nat)
    (hx : x < 9007199254740992) :
    encoderStream_genSerial x < 1000000 ∧
    (∀ st st' : EncoderModel,
      (encoder_stream_auto st x).1 = (encoder_stream_auto st' x).1) ∧
    (∀ st : EncoderModel,
      (encoder_stream_auto st x).2.2.streams.lookup
        (encoderStream_genSerial x) = some st.nextId) := by
  refine ⟨?_, fun st st' => rfl, fun st => ?_⟩
  · unfold encoderStream_genSerial
    omega
  · simp [encoder_stream_auto, List.lookup]

/-- Witness for C4 at the draw `x = 2^52` (random value 0.5): the generated
serial number is 500000, and even with serial 500000 already in use by stream
7 the new stream 8 is stored under that same serial number — a collision the
claim says is checked for. -/
theorem encoder_stream_auto_bounded_unchecked_witness :
    encoderStream_genSerial 4503599627370496 < 1000000 ∧
    (encoder_stream_auto ⟨[(500000, 7)], 8, [7], [], false, false⟩
        4503599627370496).2.2.streams.lookup
      (encoderStream_genSerial 4503599627370496) = some 8 :=
  ⟨(encoder_stream_auto_bounded_unchecked 4503599627370496 (by decide)).1,
   (encoder_stream_auto_bounded_unchecked 4503599627370496 (by decide)).2.2
     ⟨[(500000, 7)], 8, [7], [], false, false⟩⟩

/-- C6: delivering the packet that carries e_o_s ends the demuxer's packet
output; a further page for the same serial number is routed by the
multiplexer to that same (still tabled) demuxer, whose page-in path then
fails with `StreamAlreadyClosed` instead of processing the page. -/
theorem demuxer_closed_after_eos (st : DemuxerState) (n : Nat)
    (rs : List PacketoutRes) :
    (DecEvent.eosEv ∈ (packetLoop n rs).1 →
      (deliverPackets st n rs).1.ended = true) ∧
    (st.ended = true →
      pagein_guarded st n rs = Except.error DecErr.streamAlreadyClosed) ∧
    (∀ (t : DecoderModel) (s i : Nat), t.streams.lookup s = some i →
      decoder_stream t s = (i, t, false)) := by
  refine ⟨?_, ?_, ?_⟩
  · intro hmem
    simp [deliverPackets, hmem]
  · intro hend
    simp [pagein_guarded, hend]
  · intro t s i hl
    simp [decoder_stream, hl]

/-- Witness for C6: a concrete e_o_s delivery ends the stream, a page-in on
the ended stream errors, and the lookup of a tabled serial number returns the
existing demuxer. -/
theorem demuxer_closed_after_eos_witness :
    (deliverPackets ⟨false⟩ 1 [PacketoutRes.got [2] false true 0 0]).1.ended =
      true ∧
    pagein_guarded ⟨true⟩ 1 [PacketoutRes.got [2] false true 0 0] =
      Except.error DecErr.streamAlreadyClosed ∧
    decoder_stream ⟨[(5, 0)], 1, []⟩ 5 = (0, ⟨[(5, 0)], 1, []⟩, false) :=
  ⟨(demuxer_closed_after_eos ⟨false⟩ 1
      [PacketoutRes.got [2] false true 0 0]).1 (by decide),
   (demuxer_closed_after_eos ⟨true⟩ 1
      [PacketoutRes.got [2] false true 0 0]).2.1 rfl,
   (demuxer_closed_after_eos ⟨true⟩ 1
      [PacketoutRes.got [2] false true 0 0]).2.2 ⟨[(5, 0)], 1, []⟩ 5 0 rfl⟩

/-- C8: `Encoder._onpage` retires a muxer exactly when the delivered page
carries the end-of-stream flag: afterwards the serial number's entry is gone
precisely if the page had e_o_s set (or the entry was already absent), other
serial numbers are untouched, and the page bytes are appended to the queue
either way. -/
theorem encoder_onpage_retires_iff_eos (st : EncoderModel) (s : Nat)
    (eos : Bool) (d : List Nat) :
    ((encoder_onpage st s eos d).streams.lookup s = none ↔
      eos = true ∨ st.streams.lookup s = none) ∧
    (∀ s', s' ≠ s →
      (encoder_onpage st s eos d).streams.lookup s' = st.streams.lookup s') ∧
    (encoder_onpage st s eos d).queue = st.queue ++ [d] := by
  unfold encoder_onpage
  cases eos with
  | false => simp
  | true =>
    refine ⟨?_, ?_, rfl⟩
    · simp [lookup_filter_ne]
    · intro s' hs'
      simp [lookup_filter_ne, hs']

/-- Witness for C8 at a concrete state: an e_o_s page for serial 5 leaves
serial 3's entry untouched. -/
theorem encoder_onpage_retires_iff_eos_witness :
    (encoder_onpage ⟨[(5, 0), (3, 1)], 2, [0, 1], [], false, false⟩ 5 true
        [9]).streams.lookup 3 =
      (⟨[(5, 0), (3, 1)], 2, [0, 1], [], false, false⟩ :
        EncoderModel).streams.lookup 3 :=
  (encoder_onpage_retires_iff_eos
    ⟨[(5, 0), (3, 1)], 2, [0, 1], [], false, false⟩ 5 true [9]).2.1 3
    (by decide)

/-- C9: `Encoder.stream` is idempotent for an already-supplied serial number:
a second call with the same serial number returns the same instance and
leaves the state (in particular the attached-handler multiset) unchanged, and
a first call on an unseen serial number attaches the page handler to the new
instance exactly once. -/
theorem encoder_stream_idempotent (st : EncoderModel) (n : Nat) :
    encoder_stream (encoder_stream st n).2 n = encoder_stream st n ∧
    ((∀ i ∈ st.handlers, i < st.nextId) → st.streams.lookup n = none →
      (encoder_stream st n).2.handlers.count (encoder_stream st n).1 = 1) := by
  cases h : st.streams.lookup n with
  | some id =>
    constructor
    · simp [encoder_stream, h]
    · intro _ hnone
      exact Option.noConfusion hnone
  | none =>
    constructor
    · simp [encoder_stream, h, List.lookup]
    · intro hlt _
      have hmem : st.nextId ∉ st.handlers := fun hm =>
        absurd (hlt _ hm) (by omega)
      simp [encoder_stream, h, List.count_cons_self,
        List.count_eq_zero.mpr hmem]

/-- Witness for C9 from the empty multiplexer and serial number 9. -/
theorem encoder_stream_idempotent_witness :
    encoder_stream (encoder_stream ⟨[], 0, [], [], false, false⟩ 9).2 9 =
      encoder_stream ⟨[], 0, [], [], false, false⟩ 9 ∧
    (encoder_stream ⟨[], 0, [], [], false, false⟩ 9).2.handlers.count
      (encoder_stream ⟨[], 0, [], [], false, false⟩ 9).1 = 1 :=
  ⟨(encoder_stream_idempotent ⟨[], 0, [], [], false, false⟩ 9).1,
   (encoder_stream_idempotent ⟨[], 0, [], [], false, false⟩ 9).2
     (by decide) rfl⟩

/-- C10: the encoder's physical output pushes null only when `_needsEnd` is
set; a read with data concatenates the whole queue first-in-first-out and
empties it; and `_needsEnd` becomes set (from unset) only through the
`output` step — whether run directly by `_read` or by the armed listener on a
page event — at a moment when no live stream remains in the table and the
queue has just been fully drained. -/
theorem encoder_read_end_conditions (st : EncoderModel) (s : Nat) (eos : Bool)
    (d : List Nat) :
    ((encoder_read st).2 = ReadAct.pushedEnd ↔ st.needsEnd = true) ∧
    (st.needsEnd = false → st.queue ≠ [] →
      encoder_read st =
        ({ st with
            queue := [], needsEnd := st.streams.isEmpty,
            pending := false }, ReadAct.pushed st.queue.flatten)) ∧
    (st.needsEnd = false → (encoder_read st).1.needsEnd = true →
      st.streams = [] ∧ (encoder_read st).1.queue = []) ∧
    (st.needsEnd = false →
      (encoder_onpage_step st s eos d).1.needsEnd = true →
      (encoder_onpage st s eos d).streams = [] ∧
      (encoder_onpage_step st s eos d).1.queue = []) := by
  refine ⟨?_, ?_, ?_, ?_⟩
  · cases hN : st.needsEnd with
    | true => simp [encoder_read, hN]
    | false =>
      cases hq : st.queue.isEmpty <;>
        simp [encoder_read, hN, hq, encoder_output]
  · intro hN hq
    have hq' : st.queue.isEmpty = false := by
      simpa [List.isEmpty_iff] using hq
    simp [encoder_read, hN, hq', encoder_output]
  · intro hN hN'
    cases hq : st.queue.isEmpty with
    | true =>
      rw [encoder_read] at hN'
      simp [hN, hq] at hN'
    | false =>
      rw [encoder_read] at hN' ⊢
      simp only [hN, hq, Bool.false_eq_true, if_false, encoder_output] at hN' ⊢
      exact ⟨List.isEmpty_iff.mp hN', trivial⟩
  · intro hN hN'
    cases hp : st.pending with
    | false =>
      rw [encoder_onpage_step] at hN'
      simp only [encoder_onpage, hp] at hN'
      simp [hN] at hN'
    | true =>
      rw [encoder_onpage_step] at hN' ⊢
      simp only [encoder_onpage, hp, if_true, encoder_output] at hN' ⊢
      exact ⟨List.isEmpty_iff.mp hN', trivial⟩

theorem ogg_stream_flush_of_nil (st : MuxerState) (h : st.pending = []) :
    ogg_stream_flush st = none := by
  simp [ogg_stream_flush, h]

theorem encoderStream_flush_of_nil (st : MuxerState) (h : st.pending = []) :
    encoderStream_flush st = ([], st) := by
  rw [encoderStream_flush.eq_def]
  split
  · rfl
  · rename_i pr heq
    rw [ogg_stream_flush_of_nil st h] at heq
    exact Option.noConfusion heq

/-- C7: a flush request on an encode stream drains all buffered packet data:
the loop produces pages until `ogg_stream_flush` reports none remains, the
emitted page bodies concatenate exactly to the previously pending data (so no
packet data is left unflushed), the final state holds no pending data, and
when nothing is queued the loop completes immediately without error. -/
theorem encoderStream_flush_drains (st : MuxerState) :
    (encoderStream_flush st).2.pending = [] ∧
    ((encoderStream_flush st).1.map FlushPage.body).flatten = st.pending ∧
    (st.pending = [] → encoderStream_flush st = ([], st)) := by
  have main : ∀ (L : Nat) (st : MuxerState), st.pending.length ≤ L →
      (encoderStream_flush st).2.pending = [] ∧
      ((encoderStream_flush st).1.map FlushPage.body).flatten = st.pending := by
    intro L
    induction L with
    | zero =>
      intro st hst
      have hp : st.pending = [] := by
        cases hpc : st.pending with
        | nil => rfl
        | cons a l => rw [hpc] at hst; simp at hst
      rw [encoderStream_flush_of_nil st hp]
      simp [hp]
    | succ L ih =>
      intro st hst
      rw [encoderStream_flush.eq_def]
      split
      · rename_i heq
        have hp : st.pending = [] := by
          by_contra hne
          simp [ogg_stream_flush, List.isEmpty_iff, hne] at heq
        simp [hp]
      · rename_i pr heq
        have hne : st.pending ≠ [] := by
          intro hp
          rw [ogg_stream_flush_of_nil st hp] at heq
          exact Option.noConfusion heq
        have hpr : pr = (⟨st.pending.take maxPageBody,
            st.eosQueued && (st.pending.drop maxPageBody).isEmpty⟩,
            ⟨st.pending.drop maxPageBody, st.pageno + 1, st.eosQueued⟩) := by
          simp [ogg_stream_flush, List.isEmpty_iff, hne] at heq
          exact heq.symm
        have hlen : pr.2.pending.length ≤ L := by
          rw [hpr]
          simp only [List.length_drop]
          have h0 : st.pending.length ≠ 0 := by
            simpa [List.length_eq_zero] using hne
          have h1 : 0 < maxPageBody := by norm_num [maxPageBody]
          omega
        obtain ⟨ih1, ih2⟩ := ih pr.2 hlen
        rw [hpr] at ih1 ih2 ⊢
        refine ⟨ih1, ?_⟩
        simp only [List.map_cons, List.flatten_cons, ih2]
        exact List.take_append_drop maxPageBody st.pending
  exact ⟨(main st.pending.length st le_rfl).1,
    (main st.pending.length st le_rfl).2,
    fun hp => encoderStream_flush_of_nil st hp⟩

/-- Witness for C7: flushing a stream with nothing queued completes without
producing pages and leaves the state unchanged. -/
theorem encoderStream_flush_drains_witness :
    encoderStream_flush ⟨[], 0, false⟩ = ([], ⟨[], 0, false⟩) :=
  (encoderStream_flush_drains ⟨[], 0, false⟩).2.2 rfl

/-- Witness for C10: a read with two queued buffers concatenates them in
order and empties the queue, leaving the end flag unset while stream 0 is
still live. -/
theorem encoder_read_end_conditions_witness :
    encoder_read ⟨[(4, 0)], 1, [0], [[1], [2]], false, false⟩ =
      (⟨[(4, 0)], 1, [0], [], false, false⟩, ReadAct.pushed [1, 2]) :=
  (encoder_read_end_conditions ⟨[(4, 0)], 1, [0], [[1], [2]], false, false⟩
    0 false []).2.1 rfl (by decide)

end NodeOgg
